import Mathlib

/-!
Verification development for the dog-image backup pipeline (`main.py`).

The program is embedded shallowly.  External HTTP effects are modelled by an
environment `Env` that fixes, for each request the program can make, the
status code and payload the remote services answer with.  The orchestrator's
mutable `self.results` list and the sequence of outward calls are threaded
explicitly through an `OState` value; the `run` entry point additionally
reports whether (and with which content) the JSON manifest was written.
Python exceptions that can escape the embedded functions (``KeyError`` on a
payload missing a key) are modelled with `Except String`.
-/

/-- A `TransferRecord`: the dictionary appended to `self.results` by
`DogImageDownloader.download_single_image`, with exactly the keys
`breed, sub_breed, filename, original_url, disk_path, status`. -/
structure TransferRecord where
  breed : String
  sub_breed : Option String
  filename : String
  original_url : String
  disk_path : String
  status : String
deriving DecidableEq, Repr

/-- An `ImageCandidate`: the `img_data` dictionary built by
`download_breed_images` (`{url, breed, sub_breed}`). -/
structure ImageCandidate where
  url : String
  breed : String
  sub_breed : Option String
deriving DecidableEq, Repr

/-- One outward call made during a run, recorded in order: folder creation
(with its boolean outcome), an upload request (with its outcome), the breed
listing request, an image resolution request, and the final JSON dump. -/
inductive Event where
  | createFolder (path : String) (ok : Bool)
  | upload (url : String) (disk_path : String) (ok : Bool)
  | listBreeds
  | getImage (breed : String) (sub_breed : Option String)
  | saveJson (filename : String) (content : List TransferRecord)
deriving DecidableEq, Repr

/-- The JSON dictionary returned by the catalog's `breeds/list/all` endpoint,
as far as `run` inspects it: whether the key `message` is present, the
breed-to-sub-breeds mapping stored under it, and which other top-level keys
exist (these are needed only for Python's emptiness test `not breeds_data`). -/
structure BreedsData where
  hasMessage : Bool
  message : List (String × List String)
  otherKeys : List String
deriving DecidableEq, Repr

/-- Python's truthiness test `not breeds_data` on the dictionary: true iff the
dictionary has no keys at all. -/
def BreedsData.isEmpty (bd : BreedsData) : Bool :=
  !bd.hasMessage && bd.otherKeys.isEmpty

/-- The response of the catalog's random-image endpoint: its HTTP status code
and its JSON payload (a flat string-to-string dictionary; the program reads
the keys `status` and `message`). -/
structure ImgResponse where
  statusCode : Nat
  body : List (String × String)
deriving DecidableEq, Repr

/-- The environment: one remote-service behaviour for a whole run.  It fixes
the status code of every folder-creation `PUT`, of every upload `POST`
(keyed by source url and destination path), of the breed listing `GET`
(together with its payload), and the full response of every image
resolution `GET` (keyed by breed and optional sub-breed). -/
structure Env where
  createFolderCode : String → Nat
  uploadCode : String → String → Nat
  breedsCode : Nat
  breedsBody : BreedsData
  imageResp : String → Option String → ImgResponse

/-- `YandexDiskAPI.create_folder`: `PUT /resources`; returns `True` on status
201 (created) or 409 (already exists), `False` otherwise. -/
def create_folder (env : Env) (folder_path : String) : Bool :=
  let code := env.createFolderCode folder_path
  code == 201 || code == 409

/-- `YandexDiskAPI.upload_file_from_url`: `POST /resources/upload`; returns
`True` exactly on status 202, `False` otherwise. -/
def upload_file_from_url (env : Env) (file_url : String) (disk_path : String) : Bool :=
  env.uploadCode file_url disk_path == 202

/-- `DogCeoAPI.get_all_breeds`: returns `response.json()` on status 200 and
the empty dictionary `{}` otherwise. -/
def get_all_breeds (env : Env) : BreedsData :=
  if env.breedsCode == 200 then env.breedsBody else ⟨false, [], []⟩

/-- Python's `data[key]` on a JSON dictionary: the value when the key is
present, a propagating `KeyError` when it is not. -/
def jsonGet (body : List (String × String)) (key : String) : Except String String :=
  match body.lookup key with
  | some v => Except.ok v
  | none => Except.error ("KeyError: " ++ key)

/-- `DogCeoAPI.get_breed_image`: on status 200 it reads `data['status']`
(a `KeyError` propagates if the key is missing); when that equals
`'success'` it returns `data['message']`, otherwise it falls through to
`return None`.  On any non-200 status it returns `None`. -/
def get_breed_image (env : Env) (breed : String) (sub_breed : Option String) :
    Except String (Option String) :=
  let resp := env.imageResp breed sub_breed
  if resp.statusCode == 200 then do
    let st ← jsonGet resp.body "status"
    if st == "success" then do
      let msg ← jsonGet resp.body "message"
      pure (some msg)
    else
      pure none
  else
    pure none

/-- Drop everything up to and including the first occurrence of `://`;
`none` when the marker does not occur. -/
def dropThroughSep : List Char → Option (List Char)
  | ':' :: '/' :: '/' :: rest => some rest
  | _ :: rest => dropThroughSep rest
  | [] => none

/-- The part of Python's `urlparse(url).path` the program relies on, at the
list-of-characters level: strip `scheme://netloc` when the `://` marker is
present (the netloc ends at the first `/`, `?` or `#`), then cut the path
off at the first `#` or `?` (fragment and query). -/
def urlPathList (cs : List Char) : List Char :=
  match dropThroughSep cs with
  | none => cs.takeWhile (fun c => c != '#' && c != '?')
  | some rest =>
    (rest.dropWhile (fun c => c != '/' && c != '?' && c != '#')).takeWhile
      (fun c => c != '#' && c != '?')

/-- The part of Python's `urlparse(url).path` the program relies on. -/
def urlPath (url : String) : String :=
  ⟨urlPathList url.data⟩

/-- `os.path.basename` on a POSIX path at the list-of-characters level: the
suffix after the last `/`. -/
def basenameList (cs : List Char) : List Char :=
  (cs.reverse.takeWhile (fun c => c != '/')).reverse

/-- `os.path.basename` on a POSIX path. -/
def basename (p : String) : String :=
  ⟨basenameList p.data⟩

/-- `DogImageDownloader.extract_filename_from_url`:
`os.path.basename(urlparse(url).path)`. -/
def extract_filename_from_url (url : String) : String :=
  basename (urlPath url)

/-- The orchestrator's threaded state: the `self.results` list plus the trace
of outward calls made so far. -/
structure OState where
  results : List TransferRecord
  trace : List Event
deriving DecidableEq, Repr

/-- Append one event to the trace. -/
def OState.log (st : OState) (e : Event) : OState :=
  { st with trace := st.trace ++ [e] }

/-- `DogImageDownloader.download_single_image`: compute the filename
(`{breed}_{sub_breed}_{basename}` or `{breed}_{basename}`), the disk path
`{folder_path}/{filename}`, request the upload, and append exactly one
result dictionary whose `status` is `success` or `error` by the upload
outcome. -/
def download_single_image (env : Env) (img_data : ImageCandidate)
    (folder_path : String) (st : OState) : OState :=
  let url := img_data.url
  let breed := img_data.breed
  let sub_breed := img_data.sub_breed
  let original_filename := extract_filename_from_url url
  let filename :=
    match sub_breed with
    | some s => breed ++ "_" ++ s ++ "_" ++ original_filename
    | none => breed ++ "_" ++ original_filename
  let disk_path := folder_path ++ "/" ++ filename
  let ok := upload_file_from_url env url disk_path
  let result : TransferRecord :=
    if ok then
      { breed := breed, sub_breed := sub_breed, filename := filename,
        original_url := url, disk_path := disk_path, status := "success" }
    else
      { breed := breed, sub_breed := sub_breed, filename := filename,
        original_url := url, disk_path := disk_path, status := "error" }
  { results := st.results ++ [result],
    trace := st.trace ++ [Event.upload url disk_path ok] }

/-- The sub-breed loop of `download_breed_images`: resolve one image per
sub-breed in order, keeping a candidate only when the resolution returned a
URL; a `KeyError` raised inside `get_breed_image` propagates.  Returns the
`images_to_download` list and the resolution events, in call order. -/
def resolveSubs (env : Env) (breed : String) :
    List String → Except String (List ImageCandidate × List Event)
  | [] => Except.ok ([], [])
  | s :: rest => do
    let image_url ← get_breed_image env breed (some s)
    let (cands, evs) ← resolveSubs env breed rest
    match image_url with
    | some u =>
      Except.ok (⟨u, breed, some s⟩ :: cands, Event.getImage breed (some s) :: evs)
    | none =>
      Except.ok (cands, Event.getImage breed (some s) :: evs)

/-- The no-sub-breeds branch of `download_breed_images`: resolve a single
image for the breed itself. -/
def resolveMain (env : Env) (breed : String) :
    Except String (List ImageCandidate × List Event) := do
  let image_url ← get_breed_image env breed none
  match image_url with
  | some u => Except.ok ([⟨u, breed, none⟩], [Event.getImage breed none])
  | none => Except.ok ([], [Event.getImage breed none])

/-- The final loop of `download_breed_images`: call `download_single_image`
on each candidate in order. -/
def downloadList (env : Env) (folder_path : String) :
    List ImageCandidate → OState → OState
  | [], st => st
  | c :: rest, st => downloadList env folder_path rest (download_single_image env c folder_path st)

/-- `DogImageDownloader.download_breed_images`: build the breed folder path,
create the folder (a failure skips the whole breed), resolve one candidate
per sub-breed — or one for the breed itself when the sub-breed list is
empty (Python's falsy test `if sub_breeds:`) — then download every
candidate. -/
def download_breed_images (env : Env) (breed : String) (sub_breeds : List String)
    (st : OState) : Except String OState :=
  let folder_path := "/PY-130(API)/dog_images/" ++ breed
  let ok := create_folder env folder_path
  let st := st.log (Event.createFolder folder_path ok)
  if !ok then
    Except.ok st
  else do
    let (cands, evs) ←
      if !sub_breeds.isEmpty then resolveSubs env breed sub_breeds
      else resolveMain env breed
    let st := { st with trace := st.trace ++ evs }
    Except.ok (downloadList env folder_path cands st)

/-- The all-breeds loop of `run`: process every `(breed, sub_breeds)` pair of
the catalog mapping in order. -/
def runAllBreeds (env : Env) :
    List (String × List String) → OState → Except String OState
  | [], st => Except.ok st
  | (breed, sub_breeds) :: rest, st => do
    let st ← download_breed_images env breed sub_breeds st
    runAllBreeds env rest st

/-- The outcome of one `run`: the final threaded state and, when the run
reached `save_results_to_json`, the manifest content that was written
(`none` when the run aborted before writing any manifest). -/
structure RunResult where
  st : OState
  manifest : Option (List TransferRecord)
deriving DecidableEq, Repr

/-- `DogImageDownloader.save_results_to_json`: dump `self.results` to
`download_results.json` (modelled as the manifest content plus a trace
event). -/
def save_results_to_json (st : OState) : OState × List TransferRecord :=
  (st.log (Event.saveJson "download_results.json" st.results), st.results)

/-- `DogImageDownloader.run`: create the root folder and the images
subfolder (either failure aborts), fetch the catalog (an empty dictionary
or one without the key `message` aborts), then either process the one
requested breed — aborting when it is absent from the mapping, and using
`breeds[target_breed] if breeds[target_breed] else []` as its sub-breed
list — or process every breed of the mapping; finally write the manifest. -/
def run (env : Env) (target_breed : Option String) : Except String RunResult :=
  let ok1 := create_folder env "/PY-130(API)"
  let st : OState := ⟨[], [Event.createFolder "/PY-130(API)" ok1]⟩
  if !ok1 then Except.ok ⟨st, none⟩ else
  let ok2 := create_folder env "/PY-130(API)/dog_images"
  let st := st.log (Event.createFolder "/PY-130(API)/dog_images" ok2)
  if !ok2 then Except.ok ⟨st, none⟩ else
  let breeds_data := get_all_breeds env
  let st := st.log Event.listBreeds
  if breeds_data.isEmpty || !breeds_data.hasMessage then Except.ok ⟨st, none⟩ else
  let breeds := breeds_data.message
  match target_breed with
  | some tb =>
    match breeds.lookup tb with
    | some subsRaw => do
      let sub_breeds := if subsRaw.isEmpty then [] else subsRaw
      let st ← download_breed_images env tb sub_breeds st
      let (st, content) := save_results_to_json st
      Except.ok ⟨st, some content⟩
    | none => Except.ok ⟨st, none⟩
  | none => do
    let st ← runAllBreeds env breeds st
    let (st, content) := save_results_to_json st
    Except.ok ⟨st, some content⟩

/-- The destination filename `download_single_image` computes for a
candidate: `{breed}_{sub_breed}_{basename}` with a sub-breed, else
`{breed}_{basename}`. -/
def candFilename (img_data : ImageCandidate) : String :=
  match img_data.sub_breed with
  | some s => img_data.breed ++ "_" ++ s ++ "_" ++ extract_filename_from_url img_data.url
  | none => img_data.breed ++ "_" ++ extract_filename_from_url img_data.url

/-- The single `TransferRecord` that `download_single_image` appends for a
candidate. -/
def candRecord (env : Env) (img_data : ImageCandidate) (folder_path : String) :
    TransferRecord :=
  let filename := candFilename img_data
  let disk_path := folder_path ++ "/" ++ filename
  { breed := img_data.breed, sub_breed := img_data.sub_breed, filename := filename,
    original_url := img_data.url, disk_path := disk_path,
    status := if upload_file_from_url env img_data.url disk_path then "success" else "error" }

lemma download_single_image_eq (env : Env) (img_data : ImageCandidate)
    (folder_path : String) (st : OState) :
    download_single_image env img_data folder_path st =
      { results := st.results ++ [candRecord env img_data folder_path],
        trace := st.trace ++
          [Event.upload img_data.url (folder_path ++ "/" ++ candFilename img_data)
            (upload_file_from_url env img_data.url
              (folder_path ++ "/" ++ candFilename img_data))] } := by
  unfold download_single_image candRecord candFilename
  cases h : img_data.sub_breed <;> simp only [h] <;> split <;> simp_all

lemma downloadList_results (env : Env) (folder_path : String)
    (cands : List ImageCandidate) (st : OState) :
    (downloadList env folder_path cands st).results =
      st.results ++ cands.map (fun c => candRecord env c folder_path) := by
  induction cands generalizing st with
  | nil => simp [downloadList]
  | cons c rest ih =>
    simp [downloadList, ih, download_single_image_eq, List.append_assoc]

lemma downloadList_trace (env : Env) (folder_path : String)
    (cands : List ImageCandidate) (st : OState) :
    (downloadList env folder_path cands st).trace =
      st.trace ++ cands.map (fun c =>
        Event.upload c.url (folder_path ++ "/" ++ candFilename c)
          (upload_file_from_url env c.url (folder_path ++ "/" ++ candFilename c))) := by
  induction cands generalizing st with
  | nil => simp [downloadList]
  | cons c rest ih =>
    simp [downloadList, ih, download_single_image_eq, List.append_assoc]

lemma resolveSubs_breed (env : Env) (b : String) :
    ∀ (subs : List String) (cands : List ImageCandidate) (evs : List Event),
      resolveSubs env b subs = Except.ok (cands, evs) → ∀ c ∈ cands, c.breed = b := by
  intro subs
  induction subs with
  | nil =>
    intro cands evs h c hc
    simp only [resolveSubs, Except.ok.injEq, Prod.mk.injEq] at h
    rw [← h.1] at hc
    simp at hc
  | cons s rest ih =>
    intro cands evs h c hc
    simp only [resolveSubs, bind, Except.bind] at h
    cases hg : get_breed_image env b (some s) with
    | error e => rw [hg] at h; exact absurd h (by simp)
    | ok iu =>
      rw [hg] at h
      cases hr : resolveSubs env b rest with
      | error e => rw [hr] at h; exact absurd h (by simp)
      | ok p =>
        rw [hr] at h
        obtain ⟨cs, es⟩ := p
        cases iu with
        | some u =>
          simp only [Except.ok.injEq, Prod.mk.injEq] at h
          rw [← h.1] at hc
          rcases List.mem_cons.mp hc with hc | hc
          · rw [hc]
          · exact ih cs es hr c hc
        | none =>
          simp only [Except.ok.injEq, Prod.mk.injEq] at h
          rw [← h.1] at hc
          exact ih cs es hr c hc

lemma resolveSubs_length (env : Env) (b : String) :
    ∀ (subs : List String) (cands : List ImageCandidate) (evs : List Event),
      (∀ s ∈ subs, ∃ u, get_breed_image env b (some s) = Except.ok (some u)) →
      resolveSubs env b subs = Except.ok (cands, evs) →
      cands.length = subs.length := by
  intro subs
  induction subs with
  | nil =>
    intro cands evs _ h
    simp only [resolveSubs, Except.ok.injEq, Prod.mk.injEq] at h
    rw [← h.1]
    simp
  | cons s rest ih =>
    intro cands evs hall h
    obtain ⟨u, hu⟩ := hall s (List.mem_cons_self s rest)
    simp only [resolveSubs, bind, Except.bind] at h
    rw [hu] at h
    cases hr : resolveSubs env b rest with
    | error e => rw [hr] at h; exact absurd h (by simp)
    | ok p =>
      rw [hr] at h
      obtain ⟨cs, es⟩ := p
      simp only [Except.ok.injEq, Prod.mk.injEq] at h
      rw [← h.1]
      simp only [List.length_cons]
      rw [ih cs es (fun s' hs' => hall s' (List.mem_cons_of_mem s hs')) hr]

lemma resolveMain_breed (env : Env) (b : String) (cands : List ImageCandidate)
    (evs : List Event) (h : resolveMain env b = Except.ok (cands, evs)) :
    ∀ c ∈ cands, c.breed = b := by
  intro c hc
  simp only [resolveMain, bind, Except.bind] at h
  cases hg : get_breed_image env b none with
  | error e => rw [hg] at h; exact absurd h (by simp)
  | ok iu =>
    rw [hg] at h
    cases iu with
    | some u =>
      simp only [Except.ok.injEq, Prod.mk.injEq] at h
      rw [← h.1] at hc
      simp only [List.mem_singleton] at hc
      rw [hc]
    | none =>
      simp only [Except.ok.injEq, Prod.mk.injEq] at h
      rw [← h.1] at hc
      simp at hc

lemma resolveMain_length (env : Env) (b : String) (cands : List ImageCandidate)
    (evs : List Event) (u : String)
    (hu : get_breed_image env b none = Except.ok (some u))
    (h : resolveMain env b = Except.ok (cands, evs)) :
    cands.length = 1 := by
  simp only [resolveMain, bind, Except.bind] at h
  rw [hu] at h
  simp only [Except.ok.injEq, Prod.mk.injEq] at h
  rw [← h.1]
  simp

lemma candRecord_breed (env : Env) (c : ImageCandidate) (fp : String) :
    (candRecord env c fp).breed = c.breed := rfl

lemma download_breed_images_fail (env : Env) (b : String) (subs : List String)
    (st : OState)
    (h : create_folder env ("/PY-130(API)/dog_images/" ++ b) = false) :
    download_breed_images env b subs st =
      Except.ok (st.log (Event.createFolder ("/PY-130(API)/dog_images/" ++ b) false)) := by
  unfold download_breed_images
  simp [h, OState.log]

lemma download_breed_images_decomp (env : Env) (b : String) (subs : List String)
    (st st' : OState)
    (h : download_breed_images env b subs st = Except.ok st') :
    ∃ new : List TransferRecord,
      st'.results = st.results ++ new ∧
      (∀ r ∈ new, r.breed = b) ∧
      (create_folder env ("/PY-130(API)/dog_images/" ++ b) = false → new = []) ∧
      (create_folder env ("/PY-130(API)/dog_images/" ++ b) = true →
        (∀ s ∈ subs, ∃ u, get_breed_image env b (some s) = Except.ok (some u)) →
        (subs.isEmpty = true → ∃ u, get_breed_image env b none = Except.ok (some u)) →
        new.length = if subs.isEmpty then 1 else subs.length) := by
  by_cases hc : create_folder env ("/PY-130(API)/dog_images/" ++ b) = true
  · unfold download_breed_images at h
    simp only [hc, Bool.not_true, Bool.false_eq_true, if_false, bind, Except.bind] at h
    by_cases hsub : subs.isEmpty = true
    · rw [if_neg (by simp [hsub])] at h
      cases hres : resolveMain env b with
      | error e => rw [hres] at h; exact absurd h (by simp)
      | ok p =>
        rw [hres] at h
        obtain ⟨cands, evs⟩ := p
        simp only [Except.ok.injEq] at h
        refine ⟨cands.map (fun c => candRecord env c ("/PY-130(API)/dog_images/" ++ b)),
          ?_, ?_, ?_, ?_⟩
        · rw [← h, downloadList_results]; simp [OState.log]
        · intro r hr
          obtain ⟨c, hcmem, hcr⟩ := List.mem_map.mp hr
          rw [← hcr, candRecord_breed]
          exact resolveMain_breed env b cands evs hres c hcmem
        · intro hfalse; rw [hfalse] at hc; simp at hc
        · intro _ _ hmain
          simp only [List.length_map]
          rw [if_pos hsub]
          obtain ⟨u, hu⟩ := hmain hsub
          exact resolveMain_length env b cands evs u hu hres
    · rw [if_pos (by simp [hsub])] at h
      cases hres : resolveSubs env b subs with
      | error e => rw [hres] at h; exact absurd h (by simp)
      | ok p =>
        rw [hres] at h
        obtain ⟨cands, evs⟩ := p
        simp only [Except.ok.injEq] at h
        refine ⟨cands.map (fun c => candRecord env c ("/PY-130(API)/dog_images/" ++ b)),
          ?_, ?_, ?_, ?_⟩
        · rw [← h, downloadList_results]; simp [OState.log]
        · intro r hr
          obtain ⟨c, hcmem, hcr⟩ := List.mem_map.mp hr
          rw [← hcr, candRecord_breed]
          exact resolveSubs_breed env b subs cands evs hres c hcmem
        · intro hfalse; rw [hfalse] at hc; simp at hc
        · intro _ hall _
          simp only [List.length_map]
          rw [if_neg hsub]
          exact resolveSubs_length env b subs cands evs hall hres
  · rw [Bool.not_eq_true] at hc
    rw [download_breed_images_fail env b subs st hc] at h
    simp only [Except.ok.injEq] at h
    refine ⟨[], ?_, by simp, fun _ => rfl, fun htrue => absurd htrue (by simp [hc])⟩
    rw [← h]
    simp [OState.log]

lemma runAllBreeds_decomp (env : Env) :
    ∀ (bs : List (String × List String)) (st st' : OState),
      runAllBreeds env bs st = Except.ok st' →
      ∃ new : List TransferRecord,
        st'.results = st.results ++ new ∧ ∀ r ∈ new, ∃ p ∈ bs, r.breed = p.1 := by
  intro bs
  induction bs with
  | nil =>
    intro st st' h
    simp only [runAllBreeds, Except.ok.injEq] at h
    exact ⟨[], by simp [h], by simp⟩
  | cons p rest ih =>
    intro st st' h
    obtain ⟨b, subs⟩ := p
    simp only [runAllBreeds, bind, Except.bind] at h
    cases hd : download_breed_images env b subs st with
    | error e => rw [hd] at h; exact absurd h (by simp)
    | ok stMid =>
      rw [hd] at h
      obtain ⟨new1, hr1, hb1, _, _⟩ := download_breed_images_decomp env b subs st stMid hd
      obtain ⟨new2, hr2, hb2⟩ := ih stMid st' h
      refine ⟨new1 ++ new2, ?_, ?_⟩
      · rw [hr2, hr1, List.append_assoc]
      · intro r hr
        rcases List.mem_append.mp hr with hr | hr
        · exact ⟨(b, subs), List.mem_cons_self _ _, hb1 r hr⟩
        · obtain ⟨q, hq, hqb⟩ := hb2 r hr
          exact ⟨q, List.mem_cons_of_mem _ hq, hqb⟩

/-- How many records of a result list belong to breed `b`. -/
def countBreed (l : List TransferRecord) (b : String) : Nat :=
  (l.filter (fun r => r.breed == b)).length

lemma countBreed_append (l1 l2 : List TransferRecord) (b : String) :
    countBreed (l1 ++ l2) b = countBreed l1 b + countBreed l2 b := by
  simp [countBreed]

lemma countBreed_all (l : List TransferRecord) (b : String)
    (h : ∀ r ∈ l, r.breed = b) : countBreed l b = l.length := by
  unfold countBreed
  rw [List.filter_eq_self.mpr]
  intro r hr
  simp [h r hr]

lemma countBreed_none (l : List TransferRecord) (b : String)
    (h : ∀ r ∈ l, r.breed ≠ b) : countBreed l b = 0 := by
  unfold countBreed
  rw [List.filter_eq_nil_iff.mpr]
  · rfl
  · intro r hr
    simp [h r hr]

lemma resolveSubs_exists (env : Env) (b : String) :
    ∀ subs : List String,
      (∀ s ∈ subs, ∃ u, get_breed_image env b (some s) = Except.ok (some u)) →
      ∃ cands evs, resolveSubs env b subs = Except.ok (cands, evs) := by
  intro subs
  induction subs with
  | nil => intro _; exact ⟨[], [], rfl⟩
  | cons s rest ih =>
    intro hall
    obtain ⟨u, hu⟩ := hall s (List.mem_cons_self s rest)
    obtain ⟨cs, es, hr⟩ := ih (fun s' hs' => hall s' (List.mem_cons_of_mem s hs'))
    refine ⟨⟨u, b, some s⟩ :: cs, Event.getImage b (some s) :: es, ?_⟩
    simp only [resolveSubs, bind, Except.bind, hu, hr]

lemma resolveSubs_allNone (env : Env) (b : String) :
    ∀ subs : List String,
      (∀ s ∈ subs, get_breed_image env b (some s) = Except.ok none) →
      ∃ evs, resolveSubs env b subs = Except.ok ([], evs) := by
  intro subs
  induction subs with
  | nil => intro _; exact ⟨[], rfl⟩
  | cons s rest ih =>
    intro hall
    have hu := hall s (List.mem_cons_self s rest)
    obtain ⟨es, hr⟩ := ih (fun s' hs' => hall s' (List.mem_cons_of_mem s hs'))
    refine ⟨Event.getImage b (some s) :: es, ?_⟩
    simp only [resolveSubs, bind, Except.bind, hu, hr]

lemma download_breed_images_exists (env : Env) (b : String) (subs : List String)
    (st : OState)
    (hall : ∀ s ∈ subs, ∃ u, get_breed_image env b (some s) = Except.ok (some u))
    (hmain : subs.isEmpty = true → ∃ u, get_breed_image env b none = Except.ok (some u)) :
    ∃ st', download_breed_images env b subs st = Except.ok st' := by
  unfold download_breed_images
  by_cases hc : create_folder env ("/PY-130(API)/dog_images/" ++ b) = true
  · simp only [hc, Bool.not_true, Bool.false_eq_true, if_false, bind, Except.bind]
    by_cases hsub : subs.isEmpty = true
    · rw [if_neg (by simp [hsub])]
      obtain ⟨u, hu⟩ := hmain hsub
      simp only [resolveMain, bind, Except.bind, hu]
      exact ⟨_, rfl⟩
    · rw [if_pos (by simp [hsub])]
      obtain ⟨cands, evs, hr⟩ := resolveSubs_exists env b subs hall
      rw [hr]
      exact ⟨_, rfl⟩
  · rw [Bool.not_eq_true] at hc
    simp only [hc, Bool.not_false, if_true]
    exact ⟨_, rfl⟩

lemma download_breed_images_allNone_exists (env : Env) (b : String)
    (subs : List String) (st : OState)
    (hfold : create_folder env ("/PY-130(API)/dog_images/" ++ b) = true)
    (hall : ∀ s ∈ subs, get_breed_image env b (some s) = Except.ok none)
    (hmain : subs.isEmpty = true → get_breed_image env b none = Except.ok none) :
    ∃ st', download_breed_images env b subs st = Except.ok st' ∧ st'.results = st.results := by
  unfold download_breed_images
  simp only [hfold, Bool.not_true, Bool.false_eq_true, if_false, bind, Except.bind]
  by_cases hsub : subs.isEmpty = true
  · rw [if_neg (by simp [hsub])]
    simp only [resolveMain, bind, Except.bind, hmain hsub]
    exact ⟨_, rfl, by simp [downloadList, OState.log]⟩
  · rw [if_pos (by simp [hsub])]
    obtain ⟨evs, hr⟩ := resolveSubs_allNone env b subs hall
    rw [hr]
    exact ⟨_, rfl, by simp [downloadList, OState.log]⟩

/-- The trace of a run that has created both root folders and fetched the
catalog. -/
def initTrace : List Event :=
  [Event.createFolder "/PY-130(API)" true,
   Event.createFolder "/PY-130(API)/dog_images" true,
   Event.listBreeds]

lemma run_target_eq (env : Env) (tb : String) (subs : List String)
    (h1 : create_folder env "/PY-130(API)" = true)
    (h2 : create_folder env "/PY-130(API)/dog_images" = true)
    (hm : (get_all_breeds env).hasMessage = true)
    (hlook : (get_all_breeds env).message.lookup tb = some subs) :
    run env (some tb) =
      (download_breed_images env tb (if subs.isEmpty then [] else subs)
          ⟨[], initTrace⟩).bind
        (fun st => Except.ok
          ⟨st.log (Event.saveJson "download_results.json" st.results), some st.results⟩) := by
  unfold run
  simp only [h1, h2, hm, hlook, BreedsData.isEmpty, Bool.not_true, Bool.false_and,
    Bool.false_or, Bool.not_false, Bool.false_eq_true, if_false, save_results_to_json,
    bind, Except.bind, OState.log, initTrace]
  rfl

lemma run_all_eq (env : Env)
    (h1 : create_folder env "/PY-130(API)" = true)
    (h2 : create_folder env "/PY-130(API)/dog_images" = true)
    (hm : (get_all_breeds env).hasMessage = true) :
    run env none =
      (runAllBreeds env (get_all_breeds env).message ⟨[], initTrace⟩).bind
        (fun st => Except.ok
          ⟨st.log (Event.saveJson "download_results.json" st.results), some st.results⟩) := by
  unfold run
  simp only [h1, h2, hm, BreedsData.isEmpty, Bool.not_true, Bool.false_and,
    Bool.false_or, Bool.not_false, Bool.false_eq_true, if_false, save_results_to_json,
    bind, Except.bind, OState.log, initTrace]
  rfl

lemma run_abort_catalog (env : Env) (tb : Option String)
    (h1 : create_folder env "/PY-130(API)" = true)
    (h2 : create_folder env "/PY-130(API)/dog_images" = true)
    (hcat : ((get_all_breeds env).isEmpty || !(get_all_breeds env).hasMessage) = true) :
    run env tb = Except.ok ⟨⟨[], initTrace⟩, none⟩ := by
  unfold run
  simp only [h1, h2, hcat, Bool.false_eq_true, if_false, if_true, OState.log, initTrace]
  rfl

lemma run_abort_unknown (env : Env) (tb : String)
    (h1 : create_folder env "/PY-130(API)" = true)
    (h2 : create_folder env "/PY-130(API)/dog_images" = true)
    (hm : (get_all_breeds env).hasMessage = true)
    (hlook : (get_all_breeds env).message.lookup tb = none) :
    run env (some tb) = Except.ok ⟨⟨[], initTrace⟩, none⟩ := by
  unfold run
  simp only [h1, h2, hm, hlook, BreedsData.isEmpty, Bool.not_true, Bool.false_and,
    Bool.false_or, Bool.false_eq_true, if_false, OState.log, initTrace]
  rfl

lemma runAllBreeds_nil (env : Env) (st : OState) :
    runAllBreeds env [] st = Except.ok st := rfl

lemma runAllBreeds_cons_ok (env : Env) (b : String) (subs : List String)
    (rest : List (String × List String)) (st st1 : OState)
    (hd : download_breed_images env b subs st = Except.ok st1) :
    runAllBreeds env ((b, subs) :: rest) st = runAllBreeds env rest st1 := by
  simp only [runAllBreeds, bind, Except.bind, hd]

lemma runAllBreeds_cons_error (env : Env) (b : String) (subs : List String)
    (rest : List (String × List String)) (st : OState) (e : String)
    (hd : download_breed_images env b subs st = Except.error e) :
    runAllBreeds env ((b, subs) :: rest) st = Except.error e := by
  simp only [runAllBreeds, bind, Except.bind, hd]

lemma download_breed_images_fail_results (env : Env) (b : String)
    (subs : List String) (st : OState)
    (hfold : create_folder env ("/PY-130(API)/dog_images/" ++ b) = false) :
    ∃ st', download_breed_images env b subs st = Except.ok st' ∧
      st'.results = st.results :=
  ⟨_, download_breed_images_fail env b subs st hfold, by simp [OState.log]⟩

lemma download_breed_images_countBreed (env : Env) (b : String) (subs : List String)
    (st st' : OState) (b' : String)
    (hfold : create_folder env ("/PY-130(API)/dog_images/" ++ b) = true)
    (hall : ∀ s ∈ subs, ∃ u, get_breed_image env b (some s) = Except.ok (some u))
    (hmain : subs.isEmpty = true → ∃ u, get_breed_image env b none = Except.ok (some u))
    (h : download_breed_images env b subs st = Except.ok st') :
    countBreed st'.results b' =
      countBreed st.results b' +
        (if b' = b then (if subs.isEmpty then 1 else subs.length) else 0) := by
  obtain ⟨new, hres, hb, _, hlen⟩ := download_breed_images_decomp env b subs st st' h
  rw [hres, countBreed_append]
  by_cases hb' : b' = b
  · rw [if_pos hb', countBreed_all new b' (fun r hr => (hb r hr).trans hb'.symm),
      hlen hfold hall hmain]
  · rw [if_neg hb',
      countBreed_none new b' (fun r hr => by rw [hb r hr]; exact fun hc => hb' hc.symm)]

lemma run_abort_root (env : Env) (tb : Option String)
    (h1 : create_folder env "/PY-130(API)" = false) :
    run env tb =
      Except.ok ⟨⟨[], [Event.createFolder "/PY-130(API)" false]⟩, none⟩ := by
  unfold run
  simp [h1]

lemma run_abort_sub (env : Env) (tb : Option String)
    (h1 : create_folder env "/PY-130(API)" = true)
    (h2 : create_folder env "/PY-130(API)/dog_images" = false) :
    run env tb =
      Except.ok ⟨⟨[], [Event.createFolder "/PY-130(API)" true,
        Event.createFolder "/PY-130(API)/dog_images" false]⟩, none⟩ := by
  unfold run
  simp [h1, h2, OState.log]

lemma run_manifest (env : Env) (tb : Option String) (rr : RunResult)
    (h : run env tb = Except.ok rr) :
    rr.manifest = none ∨ rr.manifest = some rr.st.results := by
  by_cases h1 : create_folder env "/PY-130(API)" = true
  · by_cases h2 : create_folder env "/PY-130(API)/dog_images" = true
    · by_cases h3 : ((get_all_breeds env).isEmpty || !(get_all_breeds env).hasMessage) = true
      · rw [run_abort_catalog env tb h1 h2 h3] at h
        cases h
        left; rfl
      · have hm : (get_all_breeds env).hasMessage = true := by
          simp only [Bool.or_eq_true, not_or, Bool.not_eq_true] at h3
          simpa using h3.2
        cases tb with
        | none =>
          rw [run_all_eq env h1 h2 hm] at h
          cases hr : runAllBreeds env (get_all_breeds env).message ⟨[], initTrace⟩ with
          | error e => rw [hr] at h; exact absurd h (by simp [Except.bind])
          | ok stx =>
            rw [hr] at h
            simp only [Except.bind, Except.ok.injEq] at h
            right
            rw [← h]
            simp [OState.log]
        | some tbv =>
          cases hlook : (get_all_breeds env).message.lookup tbv with
          | none =>
            rw [run_abort_unknown env tbv h1 h2 hm hlook] at h
            cases h
            left; rfl
          | some subs =>
            rw [run_target_eq env tbv subs h1 h2 hm hlook] at h
            cases hr : download_breed_images env tbv
                (if subs.isEmpty then [] else subs) ⟨[], initTrace⟩ with
            | error e => rw [hr] at h; exact absurd h (by simp [Except.bind])
            | ok stx =>
              rw [hr] at h
              simp only [Except.bind, Except.ok.injEq] at h
              right
              rw [← h]
              simp [OState.log]
    · rw [Bool.not_eq_true] at h2
      rw [run_abort_sub env tb h1 h2] at h
      cases h
      left; rfl
  · rw [Bool.not_eq_true] at h1
    rw [run_abort_root env tb h1] at h
    cases h
    left; rfl

lemma basename_of_trailing_slash (p : String) (h : p.data.getLast? = some '/') :
    basename p = "" := by
  have hrev : p.data.reverse.head? = some '/' := by rw [List.head?_reverse, h]
  cases hd : p.data.reverse with
  | nil => rw [hd] at hrev; cases hrev
  | cons c cs =>
    rw [hd] at hrev
    simp only [List.head?_cons, Option.some.injEq] at hrev
    unfold basename basenameList
    rw [hd, hrev]
    simp

lemma breedFolder_ne (tb other : String) (hlen : other.length < 24) :
    "/PY-130(API)/dog_images/" ++ tb ≠ other := by
  intro h
  have hl := congrArg String.length h
  rw [String.length_append] at hl
  have h25 : ("/PY-130(API)/dog_images/" : String).length = 24 := by decide
  omega

/-- The image URL used in the spec's filename-determinism example. -/
def huskyUrl : String :=
  "https://images.dog.ceo/breeds/husky-siberian/n02110063_8514.jpg"

/-- A concrete candidate: breed `husky`, sub-breed `siberian`. -/
def candW : ImageCandidate := ⟨huskyUrl, "husky", some "siberian"⟩

/-- The breed folder for `husky`. -/
def fpW : String := "/PY-130(API)/dog_images/husky"

/-- A concrete environment in which every remote call succeeds: folders are
created (201), uploads are accepted (202), the catalog lists `husky` with
sub-breed `siberian`, every image query answers 200 with a `success`
payload carrying `huskyUrl`. -/
def envW : Env :=
  ⟨fun _ => 201, fun _ _ => 202, 200,
   ⟨true, [("husky", ["siberian"])], ["status"]⟩,
   fun _ _ => ⟨200, [("status", "success"), ("message", huskyUrl)]⟩⟩

/-- Like `envW` but every upload request is rejected (500). -/
def envFail : Env := { envW with uploadCode := fun _ _ => 500 }

/-- Like `envW` but the catalog listing fails (500), so `get_all_breeds`
yields the empty dictionary. -/
def envCatDown : Env := { envW with breedsCode := 500 }

/-- Like `envW` but image responses are 200 with a payload that has no
`status` key. -/
def envNoStatus : Env :=
  { envW with imageResp := fun _ _ => ⟨200, [("message", huskyUrl)]⟩ }

/-- A candidate whose URL path ends in `/` (empty final path segment). -/
def slashCand : ImageCandidate :=
  ⟨"https://images.dog.ceo/breeds/husky/", "husky", none⟩

/-- Like `envW` but creating the `husky` breed folder fails (500) while all
other folders succeed. -/
def envFoldFail : Env :=
  { envW with createFolderCode := fun p => if p = fpW then 500 else 201 }

/-- C1: every `ImageCandidate` that reaches the upload step — every call of
`download_single_image` — appends exactly one `TransferRecord` to the
results list, whatever the transfer outcome; and every later operation of
the run (the rest of a breed's loop, later breeds, final serialization)
only appends further records, never mutating or removing a previously
appended one: the old list is always a prefix, and the manifest, when
written, is exactly the accumulated list. -/
theorem claim_C1 :
    (∀ (env : Env) (img_data : ImageCandidate) (folder_path : String) (st : OState),
      ∃ r, (download_single_image env img_data folder_path st).results =
        st.results ++ [r]) ∧
    (∀ (env : Env) (b : String) (subs : List String) (st st' : OState),
      download_breed_images env b subs st = Except.ok st' →
      ∃ new, st'.results = st.results ++ new) ∧
    (∀ (env : Env) (bs : List (String × List String)) (st st' : OState),
      runAllBreeds env bs st = Except.ok st' →
      ∃ new, st'.results = st.results ++ new) ∧
    (∀ (env : Env) (tb : Option String) (rr : RunResult),
      run env tb = Except.ok rr →
      rr.manifest = none ∨ rr.manifest = some rr.st.results) := by
  refine ⟨?_, ?_, ?_, ?_⟩
  · intro env img_data folder_path st
    exact ⟨candRecord env img_data folder_path, by rw [download_single_image_eq]⟩
  · intro env b subs st st' h
    obtain ⟨new, hres, _, _, _⟩ := download_breed_images_decomp env b subs st st' h
    exact ⟨new, hres⟩
  · intro env bs st st' h
    obtain ⟨new, hres, _⟩ := runAllBreeds_decomp env bs st st' h
    exact ⟨new, hres⟩
  · intro env tb rr h
    exact run_manifest env tb rr h

/-- Witness for C1 at concrete inputs. -/
theorem claim_C1_witness :
    (∃ r, (download_single_image envW candW fpW ⟨[], []⟩).results =
      ([] : List TransferRecord) ++ [r]) ∧
    (∃ new, (⟨[], []⟩ : OState).results = (⟨[], []⟩ : OState).results ++ new) :=
  ⟨claim_C1.1 envW candW fpW ⟨[], []⟩,
   claim_C1.2.2.1 envW [] ⟨[], []⟩ ⟨[], []⟩ rfl⟩

/-- C3: the destination filename is `{breed}_{sub_breed}_{basename}` when a
sub-breed is present and `{breed}_{basename}` otherwise, `basename` being
the final path segment of the URL's path component with query string and
fragment excluded; in particular the husky/siberian example produces
exactly `husky_siberian_n02110063_8514.jpg` (and `husky_n02110063_8514.jpg`
without the sub-breed), and the destination path is
`/PY-130(API)/dog_images/{breed}/{filename}`. -/
theorem claim_C3 :
    (∀ (env : Env) (img_data : ImageCandidate) (folder_path : String) (st : OState),
      (download_single_image env img_data folder_path st).results =
        st.results ++ [candRecord env img_data folder_path] ∧
      (candRecord env img_data folder_path).filename =
        (match img_data.sub_breed with
         | some s => img_data.breed ++ "_" ++ s ++ "_" ++ basename (urlPath img_data.url)
         | none => img_data.breed ++ "_" ++ basename (urlPath img_data.url)) ∧
      (candRecord env img_data folder_path).disk_path =
        folder_path ++ "/" ++ (candRecord env img_data folder_path).filename) ∧
    candFilename candW = "husky_siberian_n02110063_8514.jpg" ∧
    candFilename ⟨huskyUrl, "husky", none⟩ = "husky_n02110063_8514.jpg" ∧
    (candRecord envW candW ("/PY-130(API)/dog_images/" ++ candW.breed)).disk_path =
      "/PY-130(API)/dog_images/husky/husky_siberian_n02110063_8514.jpg" ∧
    extract_filename_from_url "https://images.dog.ceo/breeds/husky/a.jpg?x=1#frag" =
      "a.jpg" := by
  refine ⟨?_, by decide, by decide, by decide, by decide⟩
  intro env img_data folder_path st
  refine ⟨by rw [download_single_image_eq], ?_, rfl⟩
  cases h : img_data.sub_breed <;>
    simp [candRecord, candFilename, h, extract_filename_from_url]

/-- C6: a failed transfer request still appends exactly one record, with
status `error`, whose `disk_path` and `original_url` are the attempted
values, with exactly the six fields of `TransferRecord`; the trace gains
exactly one upload event, so the failure is neither dropped nor retried. -/
theorem claim_C6 (env : Env) (img_data : ImageCandidate) (folder_path : String)
    (st : OState)
    (hfail : upload_file_from_url env img_data.url
      (folder_path ++ "/" ++ candFilename img_data) = false) :
    (download_single_image env img_data folder_path st).results =
      st.results ++ [{ breed := img_data.breed, sub_breed := img_data.sub_breed, filename := candFilename img_data, original_url := img_data.url, disk_path := folder_path ++ "/" ++ candFilename img_data, status := "error" }] ∧
    (download_single_image env img_data folder_path st).trace =
      st.trace ++
        [Event.upload img_data.url (folder_path ++ "/" ++ candFilename img_data) false] := by
  rw [download_single_image_eq]
  constructor
  · simp [candRecord, hfail]
  · rw [hfail]

/-- Witness for C6: with every upload rejected, the husky/siberian candidate
yields exactly one `error` record with the attempted path and URL. -/
theorem claim_C6_witness :
    (download_single_image envFail candW fpW ⟨[], []⟩).results =
      ([] : List TransferRecord) ++ [{ breed := candW.breed, sub_breed := candW.sub_breed, filename := candFilename candW, original_url := candW.url, disk_path := fpW ++ "/" ++ candFilename candW, status := "error" }] ∧
    (download_single_image envFail candW fpW ⟨[], []⟩).trace =
      ([] : List Event) ++
        [Event.upload candW.url (fpW ++ "/" ++ candFilename candW) false] :=
  claim_C6 envFail candW fpW ⟨[], []⟩ (by decide)

/-- C10: when the candidate URL's path component ends in `/`, the extracted
basename is empty, the computed filename is exactly `{breed}_` (or
`{breed}_{sub_breed}_`), and the transfer is still attempted and recorded
with that filename rather than rejected. -/
theorem claim_C10 (env : Env) (img_data : ImageCandidate) (folder_path : String)
    (st : OState)
    (hslash : (urlPath img_data.url).data.getLast? = some '/') :
    extract_filename_from_url img_data.url = "" ∧
    candFilename img_data =
      (match img_data.sub_breed with
       | some s => img_data.breed ++ "_" ++ s ++ "_"
       | none => img_data.breed ++ "_") ∧
    (download_single_image env img_data folder_path st).results =
      st.results ++ [candRecord env img_data folder_path] ∧
    (download_single_image env img_data folder_path st).trace =
      st.trace ++
        [Event.upload img_data.url (folder_path ++ "/" ++ candFilename img_data)
          (upload_file_from_url env img_data.url
            (folder_path ++ "/" ++ candFilename img_data))] := by
  have hbase : extract_filename_from_url img_data.url = "" :=
    basename_of_trailing_slash _ hslash
  refine ⟨hbase, ?_, by rw [download_single_image_eq], by rw [download_single_image_eq]⟩
  cases h : img_data.sub_breed with
  | some s => simp [candFilename, h, hbase, String.append_empty]
  | none => simp [candFilename, h, hbase, String.append_empty]

/-- Witness for C10 at a concrete trailing-slash URL. -/
theorem claim_C10_witness :
    extract_filename_from_url slashCand.url = "" ∧
    candFilename slashCand =
      (match slashCand.sub_breed with
       | some s => slashCand.breed ++ "_" ++ s ++ "_"
       | none => slashCand.breed ++ "_") ∧
    (download_single_image envW slashCand fpW ⟨[], []⟩).results =
      (⟨[], []⟩ : OState).results ++ [candRecord envW slashCand fpW] ∧
    (download_single_image envW slashCand fpW ⟨[], []⟩).trace =
      (⟨[], []⟩ : OState).trace ++
        [Event.upload slashCand.url (fpW ++ "/" ++ candFilename slashCand)
          (upload_file_from_url envW slashCand.url
            (fpW ++ "/" ++ candFilename slashCand))] :=
  claim_C10 envW slashCand fpW ⟨[], []⟩ (by decide)

/-- C4 counterexample: on a 200 response whose payload lacks the `status`
key (one kind of malformed payload), `get_breed_image` raises a `KeyError`
instead of returning `None`, contradicting the claim that a malformed
payload with a missing status marker yields an absent value without a
fault. -/
theorem claim_C4_counterexample :
    get_breed_image envNoStatus "husky" none = Except.error "KeyError: status" ∧
    get_breed_image envNoStatus "husky" none ≠ Except.ok none := by
  constructor
  · rfl
  · intro hcontra
    rw [show get_breed_image envNoStatus "husky" none =
      Except.error "KeyError: status" from rfl] at hcontra
    exact Except.noConfusion hcontra

/-- C4 (amended): `get_breed_image` returns `None` on any non-success
response, and on a successful response whose status marker is present but
differs from `success`; when the response is successful and the status
marker is missing it raises a `KeyError` fault instead of returning `None`;
and it returns a URL only when the response is successful and the status
marker equals `success` (the URL being the payload's `message`). -/
theorem claim_C4 (env : Env) (b : String) (sb : Option String) :
    ((env.imageResp b sb).statusCode ≠ 200 →
      get_breed_image env b sb = Except.ok none) ∧
    (∀ v, (env.imageResp b sb).body.lookup "status" = some v → v ≠ "success" →
      get_breed_image env b sb = Except.ok none) ∧
    ((env.imageResp b sb).statusCode = 200 →
      (env.imageResp b sb).body.lookup "status" = none →
      get_breed_image env b sb = Except.error "KeyError: status") ∧
    (∀ u, get_breed_image env b sb = Except.ok (some u) →
      (env.imageResp b sb).statusCode = 200 ∧
      (env.imageResp b sb).body.lookup "status" = some "success" ∧
      (env.imageResp b sb).body.lookup "message" = some u) := by
  refine ⟨?_, ?_, ?_, ?_⟩
  · intro hne
    unfold get_breed_image
    rw [if_neg (by simpa using hne)]
    rfl
  · intro v hv hne
    unfold get_breed_image jsonGet
    by_cases hsc : (env.imageResp b sb).statusCode == 200
    · rw [if_pos hsc, hv]
      simp only [bind, Except.bind]
      rw [if_neg (by simpa using hne)]
      rfl
    · rw [if_neg hsc]
      rfl
  · intro hsc hnone
    unfold get_breed_image jsonGet
    rw [if_pos (by simpa using hsc), hnone]
    rfl
  · intro u h
    unfold get_breed_image jsonGet at h
    by_cases hsc : (env.imageResp b sb).statusCode == 200
    · rw [if_pos hsc] at h
      refine ⟨by simpa using hsc, ?_⟩
      cases hst : (env.imageResp b sb).body.lookup "status" with
      | none => rw [hst] at h; exact absurd h (by simp [bind, Except.bind])
      | some v =>
        rw [hst] at h
        simp only [bind, Except.bind] at h
        by_cases hv : v == "success"
        · rw [if_pos hv] at h
          cases hmsg : (env.imageResp b sb).body.lookup "message" with
          | none => rw [hmsg] at h; exact absurd h (by simp)
          | some m =>
            rw [hmsg] at h
            simp only [pure, Except.pure, Except.ok.injEq, Option.some.injEq] at h
            refine ⟨?_, ?_⟩
            · rw [show v = "success" from by simpa using hv]
            · rw [h]
        · rw [if_neg hv] at h
          exact absurd h (by simp [pure, Except.pure])
    · rw [if_neg hsc] at h
      exact absurd h (by simp [pure, Except.pure])

/-- Witness for C4 (amended) at a concrete environment: a 200 response whose
status marker is `failure` yields `Except.ok none`. -/
theorem claim_C4_witness :
    get_breed_image { envW with imageResp := fun _ _ => ⟨200, [("status", "failure")]⟩ }
      "husky" none = Except.ok none :=
  (claim_C4 { envW with imageResp := fun _ _ => ⟨200, [("status", "failure")]⟩ }
    "husky" none).2.1 "failure" (by decide) (by decide)

/-- C5: when the catalog listing yields an empty dictionary (as happens on
any non-success listing response), the run aborts in the catalog-fetch
stage: the trace stops at the listing call, the results list is empty (no
`TransferRecord` is ever created), and no manifest is written. -/
theorem claim_C5 (env : Env) (tb : Option String)
    (h1 : create_folder env "/PY-130(API)" = true)
    (h2 : create_folder env "/PY-130(API)/dog_images" = true)
    (hcat : (get_all_breeds env).isEmpty = true) :
    run env tb = Except.ok ⟨⟨[], initTrace⟩, none⟩ :=
  run_abort_catalog env tb h1 h2 (by simp [hcat])

/-- Witness for C5: with the listing endpoint failing, the run of target
`husky` aborts with empty results and no manifest. -/
theorem claim_C5_witness :
    run envCatDown (some "husky") = Except.ok ⟨⟨[], initTrace⟩, none⟩ :=
  claim_C5 envCatDown (some "husky") (by decide) (by decide) (by decide)

/-- C8: a requested target breed absent from the catalog listing aborts the
run right after the listing call: the trace contains only the two root
folder creations and the listing — in particular no folder creation for
that breed's folder, no upload, and no manifest dump — and no manifest is
written. -/
theorem claim_C8 (env : Env) (tb : String)
    (h1 : create_folder env "/PY-130(API)" = true)
    (h2 : create_folder env "/PY-130(API)/dog_images" = true)
    (hm : (get_all_breeds env).hasMessage = true)
    (hlook : (get_all_breeds env).message.lookup tb = none) :
    run env (some tb) = Except.ok ⟨⟨[], initTrace⟩, none⟩ ∧
    (∀ ok, Event.createFolder ("/PY-130(API)/dog_images/" ++ tb) ok ∉ initTrace) ∧
    (∀ u d ok, Event.upload u d ok ∉ initTrace) ∧
    (∀ f c, Event.saveJson f c ∉ initTrace) := by
  refine ⟨run_abort_unknown env tb h1 h2 hm hlook, ?_, ?_, ?_⟩
  · intro ok hmem
    simp only [initTrace, List.mem_cons, List.not_mem_nil, or_false,
      Event.createFolder.injEq] at hmem
    rcases hmem with ⟨hp, _⟩ | ⟨hp, _⟩ | hmem
    · exact breedFolder_ne tb "/PY-130(API)" (by decide) hp
    · exact breedFolder_ne tb "/PY-130(API)/dog_images" (by decide) hp
    · exact Event.noConfusion hmem
  · intro u d ok hmem
    simp [initTrace] at hmem
  · intro f c hmem
    simp [initTrace] at hmem

/-- Witness for C8: requesting the breed `terrier`, absent from `envW`'s
catalog, aborts before any breed folder or transfer call. -/
theorem claim_C8_witness :
    run envW (some "terrier") = Except.ok ⟨⟨[], initTrace⟩, none⟩ ∧
    (∀ ok, Event.createFolder ("/PY-130(API)/dog_images/" ++ "terrier") ok ∉ initTrace) ∧
    (∀ u d ok, Event.upload u d ok ∉ initTrace) ∧
    (∀ f c, Event.saveJson f c ∉ initTrace) :=
  claim_C8 envW "terrier" (by decide) (by decide) (by decide) (by decide)

/-- C2: if a breed's folder creation succeeds and every image resolution for
it succeeds, processing that breed adds exactly one `TransferRecord` per
sub-breed (and exactly one when it has none); in particular a targeted run
on such a breed ends with exactly that many records for it in the
ResultSet, which is what the manifest receives. -/
theorem claim_C2 (env : Env) (b : String) (subs : List String)
    (hfold : create_folder env ("/PY-130(API)/dog_images/" ++ b) = true)
    (hall : ∀ s ∈ subs, ∃ u, get_breed_image env b (some s) = Except.ok (some u))
    (hmain : subs.isEmpty = true → ∃ u, get_breed_image env b none = Except.ok (some u)) :
    (∀ st st', download_breed_images env b subs st = Except.ok st' →
      countBreed st'.results b =
        countBreed st.results b + (if subs.isEmpty then 1 else subs.length)) ∧
    (create_folder env "/PY-130(API)" = true →
      create_folder env "/PY-130(API)/dog_images" = true →
      (get_all_breeds env).hasMessage = true →
      (get_all_breeds env).message.lookup b = some subs →
      ∃ rr, run env (some b) = Except.ok rr ∧
        countBreed rr.st.results b = (if subs.isEmpty then 1 else subs.length) ∧
        rr.manifest = some rr.st.results) := by
  constructor
  · intro st st' h
    have := download_breed_images_countBreed env b subs st st' b hfold hall hmain h
    rw [this, if_pos rfl]
  · intro h1 h2 hm hlook
    have hsubs' : (if subs.isEmpty then [] else subs) = subs := by
      by_cases hs : subs.isEmpty
      · rw [if_pos hs, List.isEmpty_iff.mp hs]
      · rw [if_neg hs]
    rw [run_target_eq env b subs h1 h2 hm hlook, hsubs']
    obtain ⟨st', hd⟩ :=
      download_breed_images_exists env b subs ⟨[], initTrace⟩ hall hmain
    rw [hd]
    refine ⟨⟨st'.log (Event.saveJson "download_results.json" st'.results),
      some st'.results⟩, by simp [Except.bind], ?_, by simp [OState.log]⟩
    have hc := download_breed_images_countBreed env b subs ⟨[], initTrace⟩ st' b
      hfold hall hmain hd
    simp only [OState.log]
    rw [hc, if_pos rfl]
    simp [countBreed]

/-- Witness for C2: a targeted run on `husky` (one sub-breed `siberian`) in
the all-success environment yields exactly one husky record. -/
theorem claim_C2_witness :
    ∃ rr, run envW (some "husky") = Except.ok rr ∧
      countBreed rr.st.results "husky" =
        (if (["siberian"] : List String).isEmpty then 1 else ["siberian"].length) ∧
      rr.manifest = some rr.st.results :=
  (claim_C2 envW "husky" ["siberian"] (by decide)
    (fun s _ => ⟨huskyUrl, rfl⟩)
    (fun h => by simp at h)).2
    (by decide) (by decide) (by decide) (by decide)

/-- C7: in a run over breeds `A` and `B` where `A`'s folder creation fails
and `B`'s succeeds (with `B`'s resolutions all succeeding), the failure is
non-fatal: no record is created for `A`, `B` contributes one record per
resolved candidate, and the run still reaches the final serialization. -/
theorem claim_C7 (env : Env) (A B : String) (sa sb : List String) (hAB : A ≠ B)
    (hfA : create_folder env ("/PY-130(API)/dog_images/" ++ A) = false)
    (hfB : create_folder env ("/PY-130(API)/dog_images/" ++ B) = true)
    (hallB : ∀ s ∈ sb, ∃ u, get_breed_image env B (some s) = Except.ok (some u))
    (hmainB : sb.isEmpty = true → ∃ u, get_breed_image env B none = Except.ok (some u)) :
    (∀ st st', runAllBreeds env [(A, sa), (B, sb)] st = Except.ok st' →
      countBreed st'.results A = countBreed st.results A ∧
      countBreed st'.results B =
        countBreed st.results B + (if sb.isEmpty then 1 else sb.length)) ∧
    (create_folder env "/PY-130(API)" = true →
      create_folder env "/PY-130(API)/dog_images" = true →
      (get_all_breeds env).hasMessage = true →
      (get_all_breeds env).message = [(A, sa), (B, sb)] →
      ∃ rr, run env none = Except.ok rr ∧
        countBreed rr.st.results A = 0 ∧
        countBreed rr.st.results B = (if sb.isEmpty then 1 else sb.length) ∧
        rr.manifest = some rr.st.results) := by
  have key : ∀ st st', runAllBreeds env [(A, sa), (B, sb)] st = Except.ok st' →
      countBreed st'.results A = countBreed st.results A ∧
      countBreed st'.results B =
        countBreed st.results B + (if sb.isEmpty then 1 else sb.length) := by
    intro st st' h
    obtain ⟨st1, hd1, hres1⟩ := download_breed_images_fail_results env A sa st hfA
    rw [runAllBreeds_cons_ok env A sa _ st st1 hd1] at h
    cases hd2 : download_breed_images env B sb st1 with
    | error e =>
      rw [runAllBreeds_cons_error env B sb [] st1 e hd2] at h
      exact absurd h (by simp)
    | ok st2 =>
      rw [runAllBreeds_cons_ok env B sb [] st1 st2 hd2, runAllBreeds_nil] at h
      simp only [Except.ok.injEq] at h
      subst h
      have hcA := download_breed_images_countBreed env B sb st1 st2 A hfB hallB hmainB hd2
      have hcB := download_breed_images_countBreed env B sb st1 st2 B hfB hallB hmainB hd2
      constructor
      · rw [hcA, if_neg hAB, hres1]
        exact Nat.add_zero _
      · rw [hcB, if_pos rfl, hres1]
  refine ⟨key, ?_⟩
  intro h1 h2 hm hmsg
  rw [run_all_eq env h1 h2 hm, hmsg]
  obtain ⟨st1, hd1, hres1⟩ :=
    download_breed_images_fail_results env A sa ⟨[], initTrace⟩ hfA
  obtain ⟨st2, hd2⟩ := download_breed_images_exists env B sb st1 hallB hmainB
  have hrun : runAllBreeds env [(A, sa), (B, sb)] ⟨[], initTrace⟩ = Except.ok st2 := by
    rw [runAllBreeds_cons_ok env A sa _ _ st1 hd1,
      runAllBreeds_cons_ok env B sb [] st1 st2 hd2, runAllBreeds_nil]
  rw [hrun]
  obtain ⟨hA, hB⟩ := key ⟨[], initTrace⟩ st2 hrun
  refine ⟨⟨st2.log (Event.saveJson "download_results.json" st2.results),
    some st2.results⟩, by simp [Except.bind], ?_, ?_, by simp [OState.log]⟩
  · simp only [OState.log]
    rw [hA]
    rfl
  · simp only [OState.log]
    rw [hB]
    simp [countBreed]

/-- A two-breed catalog where `akita`'s breed folder cannot be created but
everything about `husky` succeeds. -/
def envC7 : Env :=
  { envW with
    createFolderCode := fun p => if p = "/PY-130(API)/dog_images/akita" then 500 else 201,
    breedsBody := ⟨true, [("akita", []), ("husky", ["siberian"])], ["status"]⟩ }

/-- Witness for C7: the `akita`/`husky` run finishes with zero akita records,
one husky record, and a written manifest. -/
theorem claim_C7_witness :
    ∃ rr, run envC7 none = Except.ok rr ∧
      countBreed rr.st.results "akita" = 0 ∧
      countBreed rr.st.results "husky" =
        (if (["siberian"] : List String).isEmpty then 1 else ["siberian"].length) ∧
      rr.manifest = some rr.st.results :=
  (claim_C7 envC7 "akita" "husky" [] ["siberian"] (by decide) (by decide) (by decide)
    (fun s _ => ⟨huskyUrl, rfl⟩) (fun h => by simp at h)).2
    (by decide) (by decide) (by decide) (by decide)

/-- C9: a run that passes Init, CatalogFetch and BreedSelection but collects
zero records — because the selected breed's folder creation fails, or every
resolution for it returns no URL — still writes the manifest, as an empty
list. -/
theorem claim_C9 (env : Env) (tb : String) (subs : List String)
    (h1 : create_folder env "/PY-130(API)" = true)
    (h2 : create_folder env "/PY-130(API)/dog_images" = true)
    (hm : (get_all_breeds env).hasMessage = true)
    (hlook : (get_all_breeds env).message.lookup tb = some subs) :
    (create_folder env ("/PY-130(API)/dog_images/" ++ tb) = false →
      ∃ rr, run env (some tb) = Except.ok rr ∧
        rr.st.results = [] ∧ rr.manifest = some []) ∧
    (create_folder env ("/PY-130(API)/dog_images/" ++ tb) = true →
      (∀ s ∈ subs, get_breed_image env tb (some s) = Except.ok none) →
      (subs.isEmpty = true → get_breed_image env tb none = Except.ok none) →
      ∃ rr, run env (some tb) = Except.ok rr ∧
        rr.st.results = [] ∧ rr.manifest = some []) := by
  have hsubs' : (if subs.isEmpty then [] else subs) = subs := by
    by_cases hs : subs.isEmpty
    · rw [if_pos hs, List.isEmpty_iff.mp hs]
    · rw [if_neg hs]
  constructor
  · intro hfold
    rw [run_target_eq env tb subs h1 h2 hm hlook, hsubs']
    obtain ⟨st1, hd1, hres1⟩ :=
      download_breed_images_fail_results env tb subs ⟨[], initTrace⟩ hfold
    rw [hd1]
    have hnil : st1.results = [] := hres1
    refine ⟨⟨st1.log (Event.saveJson "download_results.json" st1.results),
      some st1.results⟩, by simp [Except.bind], ?_, by rw [hnil]⟩
    simp [OState.log, hnil]
  · intro hfold hallN hmainN
    rw [run_target_eq env tb subs h1 h2 hm hlook, hsubs']
    obtain ⟨st1, hd1, hres1⟩ :=
      download_breed_images_allNone_exists env tb subs ⟨[], initTrace⟩ hfold hallN hmainN
    rw [hd1]
    have hnil : st1.results = [] := hres1
    refine ⟨⟨st1.log (Event.saveJson "download_results.json" st1.results),
      some st1.results⟩, by simp [Except.bind], ?_, by rw [hnil]⟩
    simp [OState.log, hnil]

/-- Witness for C9: with the `husky` breed folder failing to create, the
targeted run still writes a manifest containing the empty list. -/
theorem claim_C9_witness :
    ∃ rr, run envFoldFail (some "husky") = Except.ok rr ∧
      rr.st.results = [] ∧ rr.manifest = some [] :=
  (claim_C9 envFoldFail "husky" ["siberian"]
    (by decide) (by decide) (by decide) (by decide)).1 (by decide)
